import Mathlib

/-!
Verification of `src/app.py` (Hospital ICU Bed Allocation dashboard).

The allocation optimizer (app.py lines 124-141) builds a linear program over
the fixed group set {moderate, severe, critical}: variables `x[g]` with domain
`NonNegativeReals` (line 126), objective
`minimize Σ_g weights[g] * (demand_dist[g] - x[g])` (lines 128-131), and the
single constraint `Σ_g x[g] ≤ total_patients` (line 134).  We embed the model
over `ℚ`.  The surrounding Streamlit form (lines 96-108), the simulation
handler (lines 110-152), the per-row shortage derivation in `load_data`
(lines 19-23) and the urban-status grouped summary (lines 48-54) are embedded
as explicit Lean functions on rationals and lists.
-/

namespace App

/-- The fixed three-element group set `sim_model.GROUPS` initialised at
app.py line 125 with `["moderate", "severe", "critical"]`. -/
inductive Group where
  | moderate
  | severe
  | critical
deriving DecidableEq

/-- The iteration order `["moderate", "severe", "critical"]` of the Pyomo set
at app.py line 125. -/
def Group.all : List Group := [Group.moderate, Group.severe, Group.critical]

/-- Total allocation `sum(sim_model.x[g] for g in sim_model.GROUPS)`, the left
side of the `capacity_limit` constraint at app.py line 134. -/
def totalAlloc (x : Group → ℚ) : ℚ := (Group.all.map x).sum

/-- The objective `sum(weights[g] * (demand_dist[g] - sim_model.x[g]) for g in
sim_model.GROUPS)` of app.py lines 128-131. -/
def objective (w d x : Group → ℚ) : ℚ :=
  (Group.all.map (fun g => w g * (d g - x g))).sum

/-- Feasibility of a point of `sim_model`: the `NonNegativeReals` variable
domain of app.py line 126 together with the `capacity_limit` constraint of
line 134.  Note there is no per-group upper bound `x[g] ≤ demand[g]`. -/
def Feasible (capacity : ℚ) (x : Group → ℚ) : Prop :=
  (∀ g, 0 ≤ x g) ∧ totalAlloc x ≤ capacity

/-- An optimal solution of `sim_model`: feasible, and of minimal objective
value among feasible points (`sense=pyo.minimize`, app.py line 130). -/
def IsOptimal (w d : Group → ℚ) (capacity : ℚ) (x : Group → ℚ) : Prop :=
  Feasible capacity x ∧ ∀ y, Feasible capacity y → objective w d x ≤ objective w d y

/-- Per-row shortage derivation of `load_data` (app.py lines 21-22): the
difference `staffed_icu_..._7_day_avg - icu_allocated` followed by
`.clip(lower=0)`. -/
def derive_shortage (demand allocated : ℚ) : ℚ := max 0 (demand - allocated)

/-- One row of the hospital CSV as used by the dashboard: the `urban_status`
column and the two numeric columns the shortage computations read
(app.py lines 21-22 and 50-53). -/
structure HospitalRow where
  urban_status : String
  icu_demand : ℚ
  icu_allocated : ℚ

/-- The `shortage` column value of a row after `load_data` (app.py
lines 21-22). -/
def rowShortage (r : HospitalRow) : ℚ := derive_shortage r.icu_demand r.icu_allocated

/-- The grouped summary of app.py lines 50-53: per urban status, sum the
demand column and the allocated column, then set
`shortage = summed demand - summed allocated` (no clip). -/
def groupedShortage (rows : List HospitalRow) (u : String) : ℚ :=
  ((rows.filter (fun r => r.urban_status == u)).map (fun r => r.icu_demand)).sum
    - ((rows.filter (fun r => r.urban_status == u)).map (fun r => r.icu_allocated)).sum

/-- The simulation form inputs (app.py lines 96-108).  `total_patients` comes
from a slider with `min_value=10, max_value=500` (line 97); the three
percentages from number inputs bounded to `[0,100]` (lines 99-101); the three
weights from unbounded number inputs (lines 104-106).  `solverAvailable`
records the result of `solver.available()` (line 138) for the environment the
handler runs in. -/
structure SimInput where
  total_patients : ℚ
  perc_moderate : ℚ
  perc_severe : ℚ
  perc_critical : ℚ
  weight_moderate : ℚ
  weight_severe : ℚ
  weight_critical : ℚ
  solverAvailable : Bool

/-- The value range the `total_patients` slider of app.py line 97 can produce
(`min_value=10, max_value=500`). -/
def SliderValid (c : ℚ) : Prop := 10 ≤ c ∧ c ≤ 500

/-- The `weights` dictionary built at app.py lines 112-116. -/
def weights (inp : SimInput) : Group → ℚ
  | .moderate => inp.weight_moderate
  | .severe => inp.weight_severe
  | .critical => inp.weight_critical

/-- The `demand_dist` dictionary built at app.py lines 117-121:
`total_patients * (perc / 100)` per group. -/
def demand_dist (inp : SimInput) : Group → ℚ
  | .moderate => inp.total_patients * (inp.perc_moderate / 100)
  | .severe => inp.total_patients * (inp.perc_severe / 100)
  | .critical => inp.total_patients * (inp.perc_critical / 100)

/-- One row of `result_df` (app.py lines 145-150): the Allocated, Demand and
Unmet columns for a group. -/
structure ResultRow where
  allocated : ℚ
  demand : ℚ
  unmet : ℚ

/-- The `result_df` construction of app.py lines 145-150: for group `g`,
`Allocated = x[g]`, `Demand = demand_dist[g]`, `Unmet = demand_dist[g] - x[g]`. -/
def result_df (d x : Group → ℚ) (g : Group) : ResultRow :=
  { allocated := x g, demand := d g, unmet := d g - x g }

/-- Observable outcome of one run of the simulation handler (app.py
lines 110-152).  The code has exactly two paths: the `st.error` branch when
the solver is unavailable (line 139), and the `st.success` branch that shows
`result_df` (lines 141-152).  The constructors `invalidWeight` and
`infeasibleProblem` are included so that the spec's claimed failure modes are
statable; the handler never produces them. -/
inductive SimOutcome where
  | solverUnavailable
  | invalidWeight
  | infeasibleProblem
  | solved (result : Group → ResultRow)

/-- Whether an outcome is the `st.success` path of app.py lines 143-152. -/
def SimOutcome.isSolved : SimOutcome → Bool
  | SimOutcome.solved _ => true
  | _ => false

/-- The simulation handler of app.py lines 110-152, parameterised by the
external LP solver (`pyo.SolverFactory("glpk")`, line 137), which receives
the weights, the demands and the capacity and returns a point.  The handler
computes `weights` and `demand_dist`, builds the model, checks
`solver.available()` (line 138), and otherwise solves and extracts
`result_df`.  It performs no validation of weights or capacity. -/
def simulateHandler (solve : (Group → ℚ) → (Group → ℚ) → ℚ → (Group → ℚ))
    (inp : SimInput) : SimOutcome :=
  let w := weights inp
  let d := demand_dist inp
  if inp.solverAvailable = false then
    SimOutcome.solverUnavailable
  else
    let x := solve w d inp.total_patients
    SimOutcome.solved (fun g => result_df d x g)

/-- Allocation that routes the whole capacity `c` to the single group `g₀`
and nothing to the others. -/
def singleAlloc (g₀ : Group) (c : ℚ) : Group → ℚ := fun g => if g = g₀ then c else 0

/-- A group of maximal weight among the three. -/
def topGroup (w : Group → ℚ) : Group :=
  if w Group.severe ≤ w Group.moderate ∧ w Group.critical ≤ w Group.moderate then
    Group.moderate
  else if w Group.critical ≤ w Group.severe then Group.severe
  else Group.critical

/-- Modelled from the spec: the GLPK backend invoked at app.py line 137 is an
external solver, not part of this repository.  Per the spec's guarantee it
returns an optimal vertex of the linear program; for this model an optimal
vertex concentrates all capacity on a group of maximal weight (proved below
for positive weights and non-negative capacity). -/
def glpkSolve (w : Group → ℚ) (_d : Group → ℚ) (c : ℚ) : Group → ℚ :=
  singleAlloc (topGroup w) c

/-- The default example weights of the form (app.py lines 104-106):
moderate 1, severe 2, critical 3. -/
def wEx : Group → ℚ
  | .moderate => 1
  | .severe => 2
  | .critical => 3

/-- The default example demands (app.py lines 97-101 defaults): 100 patients
split 30/40/30. -/
def dEx : Group → ℚ
  | .moderate => 30
  | .severe => 40
  | .critical => 30

lemma sum_all (f : Group → ℚ) :
    (Group.all.map f).sum = f Group.moderate + f Group.severe + f Group.critical := by
  simp [Group.all]
  ring

lemma totalAlloc_eq (x : Group → ℚ) :
    totalAlloc x = x Group.moderate + x Group.severe + x Group.critical :=
  sum_all x

lemma objective_eq (w d x : Group → ℚ) :
    objective w d x =
      w Group.moderate * (d Group.moderate - x Group.moderate) +
        w Group.severe * (d Group.severe - x Group.severe) +
        w Group.critical * (d Group.critical - x Group.critical) :=
  sum_all _

lemma le_w_topGroup (w : Group → ℚ) (g : Group) : w g ≤ w (topGroup w) := by
  unfold topGroup
  split_ifs with h1 h2
  · cases g
    · exact le_rfl
    · exact h1.1
    · exact h1.2
  · rcases not_and_or.mp h1 with h | h <;> push_neg at h <;> cases g <;> linarith
  · push_neg at h2
    rcases not_and_or.mp h1 with h | h <;> push_neg at h <;> cases g <;> linarith

lemma totalAlloc_singleAlloc (g₀ : Group) (c : ℚ) : totalAlloc (singleAlloc g₀ c) = c := by
  cases g₀ <;> simp [totalAlloc, Group.all, singleAlloc]

lemma singleAlloc_nonneg (g₀ : Group) (c : ℚ) (hc : 0 ≤ c) (g : Group) :
    0 ≤ singleAlloc g₀ c g := by
  unfold singleAlloc
  split_ifs
  · exact hc
  · exact le_rfl

lemma singleAlloc_optimal (w d : Group → ℚ) (c : ℚ) (g₀ : Group)
    (hg : ∀ g, w g ≤ w g₀) (hg0 : 0 ≤ w g₀) (hc : 0 ≤ c) :
    IsOptimal w d c (singleAlloc g₀ c) := by
  refine ⟨⟨singleAlloc_nonneg g₀ c hc, by rw [totalAlloc_singleAlloc]⟩, ?_⟩
  rintro y ⟨hy0, hysum⟩
  rw [totalAlloc_eq] at hysum
  rw [objective_eq, objective_eq]
  have key : w Group.moderate * y Group.moderate + w Group.severe * y Group.severe +
      w Group.critical * y Group.critical ≤
      w g₀ * (singleAlloc g₀ c Group.moderate + singleAlloc g₀ c Group.severe +
        singleAlloc g₀ c Group.critical) := by
    have hs : singleAlloc g₀ c Group.moderate + singleAlloc g₀ c Group.severe +
        singleAlloc g₀ c Group.critical = c := by
      rw [← totalAlloc_eq, totalAlloc_singleAlloc]
    rw [hs]
    calc w Group.moderate * y Group.moderate + w Group.severe * y Group.severe +
          w Group.critical * y Group.critical
        ≤ w g₀ * y Group.moderate + w g₀ * y Group.severe + w g₀ * y Group.critical := by
          have t1 := mul_le_mul_of_nonneg_right (hg Group.moderate) (hy0 Group.moderate)
          have t2 := mul_le_mul_of_nonneg_right (hg Group.severe) (hy0 Group.severe)
          have t3 := mul_le_mul_of_nonneg_right (hg Group.critical) (hy0 Group.critical)
          linarith
      _ = w g₀ * (y Group.moderate + y Group.severe + y Group.critical) := by ring
      _ ≤ w g₀ * c := mul_le_mul_of_nonneg_left hysum hg0
  have hwx : w Group.moderate * singleAlloc g₀ c Group.moderate +
      w Group.severe * singleAlloc g₀ c Group.severe +
      w Group.critical * singleAlloc g₀ c Group.critical =
      w g₀ * (singleAlloc g₀ c Group.moderate + singleAlloc g₀ c Group.severe +
        singleAlloc g₀ c Group.critical) := by
    cases g₀ <;> (simp [singleAlloc]; try ring)
  nlinarith [key, hwx]

/-- C1: for every problem with non-negative demands, positive weights and
non-negative capacity, the model `sim_model` (app.py lines 124-134) has an
optimal solution, and every optimal solution is an allocation with
`x[g] ≥ 0` for every group, `Σ_g x[g] ≤ capacity`, and minimal
`Σ_g weight[g] * (demand[g] - x[g])` among all such feasible allocations. -/
theorem c1_optimizer_guarantees (w d : Group → ℚ) (c : ℚ)
    (hd : ∀ g, 0 ≤ d g) (hw : ∀ g, 0 < w g) (hc : 0 ≤ c) :
    (∃ x, IsOptimal w d c x) ∧
      ∀ x, IsOptimal w d c x →
        ((∀ g, 0 ≤ x g) ∧ totalAlloc x ≤ c ∧
          ∀ y, (∀ g, 0 ≤ y g) → totalAlloc y ≤ c →
            objective w d x ≤ objective w d y) := by
  refine ⟨⟨singleAlloc (topGroup w) c,
    singleAlloc_optimal w d c _ (le_w_topGroup w) (le_of_lt (hw _)) hc⟩, ?_⟩
  intro x hx
  exact ⟨hx.1.1, hx.1.2, fun y h1 h2 => hx.2 y ⟨h1, h2⟩⟩

/-- Witness for C1 at the form defaults: demands 30/40/30, weights 1/2/3,
capacity 100. -/
theorem c1_optimizer_guarantees_witness :
    (∃ x, IsOptimal wEx dEx 100 x) ∧
      ∀ x, IsOptimal wEx dEx 100 x →
        ((∀ g, 0 ≤ x g) ∧ totalAlloc x ≤ 100 ∧
          ∀ y, (∀ g, 0 ≤ y g) → totalAlloc y ≤ 100 →
            objective wEx dEx x ≤ objective wEx dEx y) :=
  c1_optimizer_guarantees wEx dEx 100
    (fun g => by cases g <;> norm_num [dEx])
    (fun g => by cases g <;> norm_num [wEx])
    (by norm_num)

lemma objective_singleAlloc (w d : Group → ℚ) (g₀ : Group) (c : ℚ) :
    objective w d (singleAlloc g₀ c) =
      w Group.moderate * d Group.moderate + w Group.severe * d Group.severe +
        w Group.critical * d Group.critical - w g₀ * c := by
  cases g₀ <;> (rw [objective_eq]; simp [singleAlloc]; ring)

lemma three_term_unique (wa wb W xa xb xc c : ℚ)
    (hxa : 0 ≤ xa) (hxb : 0 ≤ xb)
    (hsum : xa + xb + xc ≤ c)
    (hwa : wa < W) (hwb : wb < W) (hW : 0 < W)
    (hobj : wa * xa + wb * xb + W * xc = W * c) :
    xa = 0 ∧ xb = 0 ∧ xc = c := by
  have hA : 0 ≤ (W - wa) * xa := mul_nonneg (by linarith) hxa
  have hB : 0 ≤ (W - wb) * xb := mul_nonneg (by linarith) hxb
  have hT : W * (xa + xb + xc) ≤ W * c := mul_le_mul_of_nonneg_left hsum hW.le
  have hA0 : (W - wa) * xa = 0 := by nlinarith
  have hB0 : (W - wb) * xb = 0 := by nlinarith
  have hxa0 : xa = 0 := by
    rcases mul_eq_zero.mp hA0 with h | h
    · exfalso; linarith
    · exact h
  have hxb0 : xb = 0 := by
    rcases mul_eq_zero.mp hB0 with h | h
    · exfalso; linarith
    · exact h
  refine ⟨hxa0, hxb0, ?_⟩
  have hWx : W * xc = W * c := by
    rw [hxa0, hxb0] at hobj
    linarith
  exact mul_left_cancel₀ (ne_of_gt hW) hWx

/-- C2: the formulation has no per-group cap `x[g] ≤ demand[g]`; for every
problem with non-negative demands, positive weights, capacity at least the
total demand, and a group `g₀` of strictly largest weight, the
winner-take-all point is optimal and every optimal allocation routes the
whole capacity to `g₀` and zero to every other group. -/
theorem c2_winner_take_all (w d : Group → ℚ) (c : ℚ) (g₀ : Group)
    (hd : ∀ g, 0 ≤ d g) (hw : ∀ g, 0 < w g)
    (hcap : (Group.all.map d).sum ≤ c)
    (hstrict : ∀ g, g ≠ g₀ → w g < w g₀) :
    IsOptimal w d c (singleAlloc g₀ c) ∧
      ∀ x, IsOptimal w d c x → (x g₀ = c ∧ ∀ g, g ≠ g₀ → x g = 0) := by
  rw [sum_all] at hcap
  have hc : 0 ≤ c := by
    have hm := hd Group.moderate
    have hs := hd Group.severe
    have hcr := hd Group.critical
    linarith
  have hg : ∀ g, w g ≤ w g₀ := by
    intro g
    by_cases h : g = g₀
    · rw [h]
    · exact (hstrict g h).le
  have hopt : IsOptimal w d c (singleAlloc g₀ c) :=
    singleAlloc_optimal w d c g₀ hg (hw g₀).le hc
  refine ⟨hopt, ?_⟩
  intro x hx
  have h1 : objective w d x ≤ objective w d (singleAlloc g₀ c) := hx.2 _ hopt.1
  have h2 : objective w d (singleAlloc g₀ c) ≤ objective w d x := hopt.2 x hx.1
  have hobj' : objective w d x = objective w d (singleAlloc g₀ c) := le_antisymm h1 h2
  rw [objective_eq, objective_singleAlloc] at hobj'
  have hobj : w Group.moderate * x Group.moderate + w Group.severe * x Group.severe +
      w Group.critical * x Group.critical = w g₀ * c := by linear_combination -hobj'
  have hx0 := hx.1.1
  have hsum := hx.1.2
  rw [totalAlloc_eq] at hsum
  cases g₀ with
  | moderate =>
    have hu := three_term_unique (w Group.severe) (w Group.critical) (w Group.moderate)
      (x Group.severe) (x Group.critical) (x Group.moderate) c
      (hx0 Group.severe) (hx0 Group.critical) (by linarith)
      (hstrict Group.severe (by decide)) (hstrict Group.critical (by decide))
      (hw Group.moderate) (by linarith)
    refine ⟨hu.2.2, ?_⟩
    intro g hg'
    cases g
    · exact (hg' rfl).elim
    · exact hu.1
    · exact hu.2.1
  | severe =>
    have hu := three_term_unique (w Group.moderate) (w Group.critical) (w Group.severe)
      (x Group.moderate) (x Group.critical) (x Group.severe) c
      (hx0 Group.moderate) (hx0 Group.critical) (by linarith)
      (hstrict Group.moderate (by decide)) (hstrict Group.critical (by decide))
      (hw Group.severe) (by linarith)
    refine ⟨hu.2.2, ?_⟩
    intro g hg'
    cases g
    · exact hu.1
    · exact (hg' rfl).elim
    · exact hu.2.1
  | critical =>
    have hu := three_term_unique (w Group.moderate) (w Group.severe) (w Group.critical)
      (x Group.moderate) (x Group.severe) (x Group.critical) c
      (hx0 Group.moderate) (hx0 Group.severe) (by linarith)
      (hstrict Group.moderate (by decide)) (hstrict Group.severe (by decide))
      (hw Group.critical) (by linarith)
    refine ⟨hu.2.2, ?_⟩
    intro g hg'
    cases g
    · exact hu.1
    · exact hu.2.1
    · exact (hg' rfl).elim

/-- Witness for C2 at the claim's own instance: demands 30/40/30, weights
1/2/3, capacity 100 (equal to the total demand), strictly largest weight at
`critical`; the optimum routes all 100 units to `critical` and zero to the
other groups. -/
theorem c2_winner_take_all_witness :
    IsOptimal wEx dEx 100 (singleAlloc Group.critical 100) ∧
      ∀ x, IsOptimal wEx dEx 100 x →
        (x Group.critical = 100 ∧ ∀ g, g ≠ Group.critical → x g = 0) :=
  c2_winner_take_all wEx dEx 100 Group.critical
    (fun g => by cases g <;> norm_num [dEx])
    (fun g => by cases g <;> norm_num [wEx])
    (by rw [sum_all]; norm_num [dEx])
    (fun g hg => by cases g <;> first | exact absurd rfl hg | norm_num [wEx])

/-- C5: holding the demands and weights fixed, the optimal objective value of
`sim_model` is non-increasing in the capacity: any optimum for the larger
capacity has objective value at most that of any optimum for the smaller. -/
theorem c5_objective_monotone_in_capacity (w d : Group → ℚ) (c₁ c₂ : ℚ)
    (x₁ x₂ : Group → ℚ) (h₁ : IsOptimal w d c₁ x₁) (h₂ : IsOptimal w d c₂ x₂)
    (hc : c₁ ≤ c₂) : objective w d x₂ ≤ objective w d x₁ :=
  h₂.2 x₁ ⟨h₁.1.1, le_trans h₁.1.2 hc⟩

/-- Witness for C5: capacities 0 and 100 at the form defaults, with the
optima concentrating capacity on `critical`. -/
theorem c5_objective_monotone_in_capacity_witness :
    objective wEx dEx (singleAlloc Group.critical 100) ≤
      objective wEx dEx (singleAlloc Group.critical 0) := by
  have hg : ∀ g, wEx g ≤ wEx Group.critical := by intro g; cases g <;> norm_num [wEx]
  have h0 : IsOptimal wEx dEx 0 (singleAlloc Group.critical 0) :=
    singleAlloc_optimal wEx dEx 0 Group.critical hg (by norm_num [wEx]) le_rfl
  have h100 : IsOptimal wEx dEx 100 (singleAlloc Group.critical 100) :=
    singleAlloc_optimal wEx dEx 100 Group.critical hg (by norm_num [wEx]) (by norm_num)
  exact c5_objective_monotone_in_capacity wEx dEx 0 100 _ _ h0 h100 (by norm_num)

/-- C6: `derive_shortage` (app.py lines 21-22) returns `max(0, demand -
allocated)` and is non-negative for all non-negative inputs. -/
theorem c6_derive_shortage_spec (demand allocated : ℚ)
    (h1 : 0 ≤ demand) (h2 : 0 ≤ allocated) :
    derive_shortage demand allocated = max 0 (demand - allocated) ∧
      0 ≤ derive_shortage demand allocated :=
  ⟨rfl, le_max_left 0 _⟩

/-- Witness for C6 at demand 5, allocated 3. -/
theorem c6_derive_shortage_spec_witness :
    derive_shortage 5 3 = max 0 (5 - 3) ∧ 0 ≤ derive_shortage 5 3 :=
  c6_derive_shortage_spec 5 3 (by norm_num) (by norm_num)

/-- C7: `demand_dist` (app.py lines 117-121) gives each group
`total_patients * (perc / 100)`, and when the three percentages sum to 100
the per-group demands sum exactly to `total_patients`. -/
theorem c7_demand_dist_sums_to_total (inp : SimInput)
    (ht : 0 ≤ inp.total_patients)
    (hp : inp.perc_moderate + inp.perc_severe + inp.perc_critical = 100) :
    demand_dist inp Group.moderate = inp.total_patients * (inp.perc_moderate / 100) ∧
      (Group.all.map (demand_dist inp)).sum = inp.total_patients := by
  refine ⟨rfl, ?_⟩
  rw [sum_all]
  simp only [demand_dist]
  linear_combination (inp.total_patients / 100) * hp

/-- The simulation form's default input (app.py lines 97-106): 100 patients,
30/40/30 split, weights 1/2/3, solver available. -/
def inpEx : SimInput := ⟨100, 30, 40, 30, 1, 2, 3, true⟩

/-- Witness for C7 at the default form input. -/
theorem c7_demand_dist_sums_to_total_witness :
    demand_dist inpEx Group.moderate = inpEx.total_patients * (inpEx.perc_moderate / 100) ∧
      (Group.all.map (demand_dist inpEx)).sum = inpEx.total_patients :=
  c7_demand_dist_sums_to_total inpEx (by norm_num [inpEx]) (by norm_num [inpEx])

/-- C8: when `solver.available()` is false the handler takes the `st.error`
branch (app.py lines 138-139): the outcome is `solverUnavailable` and no
allocation result is presented as a success. -/
theorem c8_solver_unavailable_surfaced
    (solve : (Group → ℚ) → (Group → ℚ) → ℚ → (Group → ℚ)) (inp : SimInput)
    (h : inp.solverAvailable = false) :
    simulateHandler solve inp = SimOutcome.solverUnavailable ∧
      ∀ r, simulateHandler solve inp ≠ SimOutcome.solved r := by
  constructor
  · simp [simulateHandler, h]
  · intro r
    simp [simulateHandler, h]

/-- The default form input in an environment without the GLPK solver. -/
def inpNoSolver : SimInput := ⟨100, 30, 40, 30, 1, 2, 3, false⟩

/-- Witness for C8 at the default form input with the solver unavailable. -/
theorem c8_solver_unavailable_surfaced_witness :
    simulateHandler glpkSolve inpNoSolver = SimOutcome.solverUnavailable ∧
      ∀ r, simulateHandler glpkSolve inpNoSolver ≠ SimOutcome.solved r :=
  c8_solver_unavailable_surfaced glpkSolve inpNoSolver rfl

/-- C9: each row of `result_df` (app.py lines 145-150) reports
`Unmet = demand[g] - x[g]` with no flooring at zero (so it is negative
whenever the group is allocated more than its raw demand), and echoes
`Demand = demand[g]` unchanged. -/
theorem c9_result_unmet_not_floored (d x : Group → ℚ) (g : Group) :
    (result_df d x g).unmet = d g - x g ∧ (result_df d x g).demand = d g ∧
      (d g < x g → (result_df d x g).unmet < 0) :=
  ⟨rfl, rfl, fun h => by simp only [result_df]; linarith⟩

/-- Witness for C9: a group allocated 50 against a demand of 30 shows
unmet equal to -20. -/
theorem c9_result_unmet_not_floored_witness :
    (result_df dEx (fun _ => 50) Group.moderate).unmet =
        dEx Group.moderate - 50 ∧
      (result_df dEx (fun _ => 50) Group.moderate).demand = dEx Group.moderate ∧
      (dEx Group.moderate < 50 → (result_df dEx (fun _ => 50) Group.moderate).unmet < 0) :=
  c9_result_unmet_not_floored dEx (fun _ => 50) Group.moderate

/-- A concrete dataset: an Urban site over-allocated relative to demand and a
Rural site under-allocated. -/
def exampleRows : List HospitalRow := [⟨"Urban", 5, 10⟩, ⟨"Rural", 8, 2⟩]

/-- C10: the urban-status grouped summary (app.py lines 50-53) computes its
shortage as summed demand minus summed allocated with no `clip(lower=0)`:
on `exampleRows` the Urban class shows a negative grouped shortage, while
every per-row `shortage` value (app.py lines 21-22) is non-negative. -/
theorem c10_grouped_shortage_can_be_negative :
    groupedShortage exampleRows "Urban" < 0 ∧
      ∀ r : HospitalRow, 0 ≤ rowShortage r := by
  constructor
  · have hu : ("Urban" == "Urban") = true := rfl
    have hr : ("Rural" == "Urban") = false := rfl
    norm_num [groupedShortage, exampleRows, hu, hr]
  · intro r
    exact le_max_left 0 _

/-- The default form input except that the critical weight is set to -1
(the number inputs of app.py lines 104-106 impose no lower bound). -/
def inpNegWeight : SimInput := ⟨100, 30, 40, 30, 1, 2, -1, true⟩

/-- C3 counterexample: with `weight_critical = -1` and the solver available,
the handler of app.py lines 110-152 does not fail with `InvalidWeight`: it
builds the model, invokes the solver and reaches the `st.success` path. -/
theorem c3_counterexample_no_invalid_weight :
    simulateHandler glpkSolve inpNegWeight ≠ SimOutcome.invalidWeight ∧
      (simulateHandler glpkSolve inpNegWeight).isSolved = true := by
  constructor
  · simp [simulateHandler, inpNegWeight]
  · rfl

/-- C3 amended: the handler performs no weight validation at all; for any
input with some non-positive weight and the solver available, it never
produces an `InvalidWeight` failure and instead proceeds to the solve and
`st.success` path. -/
theorem c3_no_weight_validation
    (solve : (Group → ℚ) → (Group → ℚ) → ℚ → (Group → ℚ)) (inp : SimInput)
    (g : Group) (hw : weights inp g ≤ 0) (ha : inp.solverAvailable = true) :
    simulateHandler solve inp ≠ SimOutcome.invalidWeight ∧
      (simulateHandler solve inp).isSolved = true := by
  constructor
  · simp [simulateHandler, ha]
  · simp [simulateHandler, ha, SimOutcome.isSolved]

/-- Witness for the amended C3 at the default input with
`weight_critical = -1`. -/
theorem c3_no_weight_validation_witness :
    simulateHandler glpkSolve inpNegWeight ≠ SimOutcome.invalidWeight ∧
      (simulateHandler glpkSolve inpNegWeight).isSolved = true :=
  c3_no_weight_validation glpkSolve inpNegWeight Group.critical
    (by norm_num [weights, inpNegWeight]) rfl

/-- The default form input with the capacity forced to -5, a value the
slider of app.py line 97 cannot actually produce. -/
def inpNegCapacity : SimInput := ⟨-5, 30, 40, 30, 1, 2, 3, true⟩

/-- C4 counterexample: a capacity of -5 does not make the handler fail with
`InfeasibleProblem` — no such branch exists in app.py lines 110-152; the
handler still reaches the `st.success` path. -/
theorem c4_counterexample_no_infeasible_failure :
    simulateHandler glpkSolve inpNegCapacity ≠ SimOutcome.infeasibleProblem ∧
      (simulateHandler glpkSolve inpNegCapacity).isSolved = true := by
  constructor
  · simp [simulateHandler, inpNegCapacity]
  · rfl

/-- C4 amended: a negative capacity does make the linear program infeasible,
but the slider of app.py line 97 (`min_value=10`) cannot produce one, and
the handler has no `InfeasibleProblem` path: on a hypothetical negative
capacity it still reaches the `st.success` path. -/
theorem c4_negative_capacity_not_surfaced
    (solve : (Group → ℚ) → (Group → ℚ) → ℚ → (Group → ℚ)) (inp : SimInput)
    (hneg : inp.total_patients < 0) (ha : inp.solverAvailable = true) :
    (¬ ∃ x, Feasible inp.total_patients x) ∧
      ¬ SliderValid inp.total_patients ∧
      simulateHandler solve inp ≠ SimOutcome.infeasibleProblem ∧
      (simulateHandler solve inp).isSolved = true := by
  refine ⟨?_, ?_, ?_, ?_⟩
  · rintro ⟨x, hx0, hxsum⟩
    rw [totalAlloc_eq] at hxsum
    have hm := hx0 Group.moderate
    have hs := hx0 Group.severe
    have hc := hx0 Group.critical
    linarith
  · rintro ⟨h10, _⟩
    linarith
  · simp [simulateHandler, ha]
  · simp [simulateHandler, ha, SimOutcome.isSolved]

/-- Witness for the amended C4 at capacity -5. -/
theorem c4_negative_capacity_not_surfaced_witness :
    (¬ ∃ x, Feasible inpNegCapacity.total_patients x) ∧
      ¬ SliderValid inpNegCapacity.total_patients ∧
      simulateHandler glpkSolve inpNegCapacity ≠ SimOutcome.infeasibleProblem ∧
      (simulateHandler glpkSolve inpNegCapacity).isSolved = true :=
  c4_negative_capacity_not_surfaced glpkSolve inpNegCapacity
    (by norm_num [inpNegCapacity]) rfl

end App
